import Mathlib

/-!
Verification of the WARC ingestion pipeline of `warcdb/__init__.py`.

The development shallowly embeds the Python module: Python dicts become
association lists with Python's insertion-order/update semantics, the
`json.dumps` call of `headers_to_json` becomes an executable character-level
encoder faithful to the stdlib's default settings (ASCII-only output,
`", "` and `": "` separators), SQLite tables become lists of rows keyed by
the primary-key value with INSERT OR IGNORE semantics, and the
`functools.cache` memoisation of `record_as_dict` becomes explicit state
passing.
-/

/-- Values that can appear in a row fed to `sqlite_utils`: strings (WARC
headers and the serialised `http_headers` JSON), byte payloads (modelled as
strings of code points), SQL NULL (Python `None`) and integers. -/
inductive Value where
  | vnull : Value
  | vstr : String → Value
  | vbytes : String → Value
  | vint : Int → Value
deriving DecidableEq, Repr

/-- A WARC or HTTP header list: ordered name/value pairs, duplicates
allowed, as `warcio` hands them to this module. -/
abbrev Headers := List (String × String)

/-- A row to be inserted: an insertion-ordered association list, the shape
`record_as_dict` builds before handing it to `sqlite_utils.insert`. -/
abbrev Row := List (String × Value)

/-- Lookup in an insertion-ordered association list (first binding wins,
as in a Python dict, whose keys are unique). -/
def assocLookup {α : Type} (d : List (String × α)) (k : String) : Option α :=
  match d with
  | [] => none
  | (k', v) :: rest => if k' = k then some v else assocLookup rest k

/-- Python dict assignment `d[k] = v`: replace the value in place if the
key is present, otherwise append the new binding at the end. -/
def pyDictUpdate {α : Type} (d : List (String × α)) (k : String) (v : α) :
    List (String × α) :=
  match d with
  | [] => [(k, v)]
  | (k', v') :: rest =>
    if k' = k then (k, v) :: rest else (k', v') :: pyDictUpdate rest k v

/-- Python `dict(pairs)`: fold the pairs into an empty dict with
assignment semantics, so a repeated key keeps its first position but ends
up with the value of its last occurrence. -/
def pyDictOfPairs {α : Type} (ps : List (String × α)) : List (String × α) :=
  ps.foldl (fun d p => pyDictUpdate d p.1 p.2) []

/-- Value of the last occurrence of key `k` in a raw pair list. -/
def lastOcc {α : Type} (ps : List (String × α)) (k : String) : Option α :=
  assocLookup ps.reverse k

/-- An `ArcWarcRecord` as consumed by this module: `recId` models Python
object identity (used by the `functools.cache` key), `rec_type` the record
type string, `rec_headers` the WARC header pairs, `http_headers` the
optional `StatusAndHeaders` envelope (its ordered header pairs), and
`content` the bytes the fresh `content_stream()` would yield. -/
structure ArcWarcRecord where
  recId : Nat
  rec_type : String
  rec_headers : Headers
  http_headers : Option Headers
  content : String
deriving DecidableEq, Repr

/-! ### JSON serialisation of HTTP headers

`headers_to_json` is `json.dumps([{'header': h, 'value': v} for h, v in
self.headers])`. The encoder below reproduces `json.dumps` with its default
settings: `ensure_ascii=True` (every code point outside `0x20..0x7e` is
escaped, astral code points as a surrogate pair), item separator `", "`,
key separator `": "`, and the shorthand escapes of the `json` module. -/

/-- Lowercase hexadecimal digit, as Python's `\uXXXX` escapes emit. -/
def hexDigit (n : Nat) : Char :=
  if n < 10 then Char.ofNat (48 + n) else Char.ofNat (87 + n)

/-- Four-digit lowercase hexadecimal rendering of `n < 0x10000`. -/
def hex4 (n : Nat) : List Char :=
  [hexDigit (n / 4096 % 16), hexDigit (n / 256 % 16),
   hexDigit (n / 16 % 16), hexDigit (n % 16)]

/-- How `json.dumps` (defaults, `ensure_ascii=True`) renders one code
point inside a string literal. -/
def escapeChar (c : Char) : List Char :=
  if c = '"' then ['\\', '"']
  else if c = '\\' then ['\\', '\\']
  else if c.toNat = 8 then ['\\', 'b']
  else if c.toNat = 9 then ['\\', 't']
  else if c.toNat = 10 then ['\\', 'n']
  else if c.toNat = 12 then ['\\', 'f']
  else if c.toNat = 13 then ['\\', 'r']
  else if c.toNat < 32 then '\\' :: 'u' :: hex4 c.toNat
  else if c.toNat < 127 then [c]
  else if c.toNat < 65536 then '\\' :: 'u' :: hex4 c.toNat
  else
    '\\' :: 'u' :: hex4 (55296 + (c.toNat - 65536) / 1024) ++
      ('\\' :: 'u' :: hex4 (56320 + (c.toNat - 65536) % 1024))

/-- A JSON string literal for `s`, quotes included. -/
def encStrChars (s : String) : List Char :=
  '"' :: s.toList.flatMap escapeChar ++ ['"']

/-- One element of the dumped array: the dict
`\x7b'header': h, 'value': v\x7d` rendered by `json.dumps`. -/
def encPairChars (p : String × String) : List Char :=
  '\x7b' :: "\"header\": ".toList ++ encStrChars p.1 ++
    ", \"value\": ".toList ++ encStrChars p.2 ++ ['\x7d']

/-- The dumped array body: items joined by `json.dumps`'s default item
separator `", "`. -/
def encHeadersChars (hs : Headers) : List Char :=
  match hs with
  | [] => []
  | [p] => encPairChars p
  | p :: rest => encPairChars p ++ ',' :: ' ' :: encHeadersChars rest

/-- The monkeypatched `StatusAndHeaders.to_json`:
`dumps([\x7b'header': h, 'value': v\x7d for h, v in self.headers])`. -/
def headers_to_json (hs : Headers) : String :=
  String.mk ('[' :: encHeadersChars hs ++ [']'])

/-! ### JSON decoding

The spec's round-trip property speaks of decoding the stored
`http_headers` value. The decoder below parses exactly the JSON fragment
shape the encoder emits: an array of two-key objects with string values,
escape sequences (shorthand, `\uXXXX`, surrogate pairs) resolved back to
code points. -/

/-- Numeric value of one lowercase/uppercase hexadecimal digit. -/
def fromHexDigit (c : Char) : Option Nat :=
  if 48 ≤ c.toNat ∧ c.toNat ≤ 57 then some (c.toNat - 48)
  else if 97 ≤ c.toNat ∧ c.toNat ≤ 102 then some (c.toNat - 87)
  else if 65 ≤ c.toNat ∧ c.toNat ≤ 70 then some (c.toNat - 55)
  else none

/-- Value of a four-digit hexadecimal escape payload. -/
def fromHex4 (h1 h2 h3 h4 : Char) : Option Nat :=
  match fromHexDigit h1, fromHexDigit h2, fromHexDigit h3, fromHexDigit h4 with
  | some a, some b, some c, some d => some (a * 4096 + b * 256 + c * 16 + d)
  | _, _, _, _ => none

/-- Prepend a decoded character to a string-body parse result. -/
def consRes (c : Char) (r : Option (List Char × List Char)) :
    Option (List Char × List Char) :=
  r.map (fun p => (c :: p.1, p.2))

/-- Decode the continuation of a high surrogate `n`: expects a
`\uXXXX` escape holding a low surrogate and recombines the pair into one
astral code point. -/
def parseLowSur (n : Nat) (l : List Char) : Option (Char × List Char) :=
  match l with
  | b1 :: u2 :: g1 :: g2 :: g3 :: g4 :: rest4 =>
    if b1 = '\\' then
      if u2 = 'u' then
        match fromHex4 g1 g2 g3 g4 with
        | none => none
        | some m =>
          if 56320 ≤ m ∧ m < 57344 then
            some (Char.ofNat
              (65536 + (n - 55296) * 1024 + (m - 56320)), rest4)
          else none
      else none
    else none
  | _ => none

/-- Decode the payload of a `\uXXXX` escape: a non-surrogate scalar
stands for itself, a high surrogate requires a following low-surrogate
escape (`parseLowSur`), a lone low surrogate is rejected. -/
def parseU (l : List Char) : Option (Char × List Char) :=
  match l with
  | h1 :: h2 :: h3 :: h4 :: rest3 =>
    match fromHex4 h1 h2 h3 h4 with
    | none => none
    | some n =>
      if n < 55296 then some (Char.ofNat n, rest3)
      else if n < 56320 then parseLowSur n rest3
      else if n < 57344 then none
      else some (Char.ofNat n, rest3)
  | _ => none

/-- Decode one escape sequence (the leading backslash already consumed):
returns the decoded character and the remaining input. -/
def parseEscape (l : List Char) : Option (Char × List Char) :=
  match l with
  | [] => none
  | e :: rest2 =>
    if e = '"' then some ('"', rest2)
    else if e = '\\' then some ('\\', rest2)
    else if e = '/' then some ('/', rest2)
    else if e = 'b' then some (Char.ofNat 8, rest2)
    else if e = 'f' then some (Char.ofNat 12, rest2)
    else if e = 'n' then some (Char.ofNat 10, rest2)
    else if e = 'r' then some (Char.ofNat 13, rest2)
    else if e = 't' then some (Char.ofNat 9, rest2)
    else if e = 'u' then parseU rest2
    else none

/-- Parse the body of a JSON string literal (the opening quote already
consumed): returns the decoded characters and the input after the closing
quote. The fuel argument bounds the number of decoded characters; callers
pass the input length, which always suffices since every decoded
character consumes at least one input character. -/
def parseStrBodyAux : Nat → List Char → Option (List Char × List Char)
  | 0, _ => none
  | fuel + 1, l =>
    match l with
    | [] => none
    | c :: rest =>
      if c = '"' then some ([], rest)
      else if c = '\\' then
        match parseEscape rest with
        | some (d, rest2) => consRes d (parseStrBodyAux fuel rest2)
        | none => none
      else consRes c (parseStrBodyAux fuel rest)

/-- Parse a complete JSON string literal, leading quote included. -/
def parseStrLit (l : List Char) : Option (String × List Char) :=
  match l with
  | '"' :: r => (parseStrBodyAux r.length r).map (fun p => (String.mk p.1, p.2))
  | _ => none

/-- Consume an expected literal character sequence. -/
def dropLit (lit l : List Char) : Option (List Char) :=
  match lit, l with
  | [], rest => some rest
  | c :: cs, d :: ds => if c = d then dropLit cs ds else none
  | _ :: _, [] => none

/-- Parse one `\x7b"header": ..., "value": ...\x7d` object. -/
def parsePair (l : List Char) : Option ((String × String) × List Char) :=
  (dropLit ('\x7b' :: "\"header\": ".toList) l).bind fun l1 =>
    (parseStrLit l1).bind fun hres =>
      (dropLit (", \"value\": ".toList) hres.2).bind fun l3 =>
        (parseStrLit l3).bind fun vres =>
          match vres.2 with
          | '\x7d' :: l5 => some ((hres.1, vres.1), l5)
          | _ => none

/-- Parse a non-empty `", "`-separated item sequence, closed by `]`;
`fuel` bounds the number of further separators. -/
def parseItemsAux : Nat → List Char → Option (Headers × List Char)
  | fuel, l =>
    (parsePair l).bind fun pres =>
      match pres.2 with
      | ']' :: r2 => some ([pres.1], r2)
      | ',' :: ' ' :: r2 =>
        match fuel with
        | 0 => none
        | f + 1 => (parseItemsAux f r2).map (fun q => (pres.1 :: q.1, q.2))
      | _ => none

/-- Decode a stored `http_headers` JSON value back into ordered pairs. -/
def parseHttpHeaders (s : String) : Option Headers :=
  match s.toList with
  | '[' :: r =>
    if r = [']'] then some []
    else
      (parseItemsAux r.length r).bind fun q =>
        if q.2 = [] then some q.1 else none
  | _ => none

/-! ### The record-to-dict adapter -/

/-- The monkeypatched `ArcWarcRecord.as_dict` (pure content): start from
`dict(self.rec_headers.headers)`, then (with `with_http_headers`) set
`ret['http_headers']` to the serialised envelope or `None`, then (with
`with_payload`) set `ret['payload']` to the drained content stream. The
payload argument lets the stateful wrapper below substitute what the
stream actually yields. -/
def record_as_dict_core (r : ArcWarcRecord) (with_http_headers : Bool)
    (with_payload : Bool) (payload : String) : Row :=
  let ret : Row := (pyDictOfPairs r.rec_headers).map
    (fun p => (p.1, Value.vstr p.2))
  let ret : Row :=
    if with_http_headers then
      match r.http_headers with
      | some hh =>
        pyDictUpdate ret "http_headers" (Value.vstr (headers_to_json hh))
      | none => pyDictUpdate ret "http_headers" Value.vnull
    else ret
  if with_payload then pyDictUpdate ret "payload" (Value.vbytes payload)
  else ret

/-- `record_as_dict` on a record whose content stream is still fresh:
`self.content_stream().read()` yields the full content. -/
def record_as_dict (r : ArcWarcRecord) (with_http_headers : Bool)
    (with_payload : Bool) : Row :=
  record_as_dict_core r with_http_headers with_payload r.content

/-- State threaded through the memoised adapter: the `functools.cache`
table keyed by (object identity, flag pair), the set of record identities
whose content stream is already drained, and a count of stream reads
performed (a read of a drained stream yields nothing). -/
structure AdapterState where
  cache : List ((Nat × Bool × Bool) × Row)
  drained : List Nat
  reads : Nat
deriving DecidableEq, Repr

/-- Lookup in the memoisation table. -/
def cacheLookup (c : List ((Nat × Bool × Bool) × Row)) (k : Nat × Bool × Bool) :
    Option Row :=
  match c with
  | [] => none
  | (k', v) :: rest => if k' = k then some v else cacheLookup rest k

/-- `self.content_stream().read()`: drains the stream (a second read of
the same record's stream yields the empty byte string) and counts as one
read. -/
def contentStreamRead (s : AdapterState) (r : ArcWarcRecord) :
    String × AdapterState :=
  if r.recId ∈ s.drained then
    ("", { s with reads := s.reads + 1 })
  else
    (r.content, { s with drained := r.recId :: s.drained, reads := s.reads + 1 })

/-- The `@cache`-decorated `record_as_dict` as the program runs it: on a
hit, return the memoised row untouched; on a miss, build the row (draining
the stream only when the payload is requested) and memoise it. -/
def record_as_dict_cached (s : AdapterState) (r : ArcWarcRecord)
    (with_http_headers : Bool) (with_payload : Bool) : Row × AdapterState :=
  match cacheLookup s.cache (r.recId, with_http_headers, with_payload) with
  | some row => (row, s)
  | none =>
    let (payload, s1) :=
      if with_payload then contentStreamRead s r else ("", s)
    let row := record_as_dict_core r with_http_headers with_payload payload
    (row, { s1 with
              cache := ((r.recId, with_http_headers, with_payload), row)
                :: s1.cache })

/-! ### The store: tables, insert-or-ignore, `WarcDB` -/

/-- A SQLite table as the ingestion path sees it: rows in insertion order,
each carried with its primary-key value (`none` models SQL NULL, which a
non-INTEGER primary key admits and never treats as a duplicate). -/
abbrev Table := List (Option Value × Row)

/-- The primary-key values present in a table. -/
def tableKeys (t : Table) : List (Option Value) := t.map (fun e => e.1)

/-- `sqlite_utils` `.insert(row, pk=..., ignore=True)`: INSERT OR IGNORE —
if a row with the same (non-NULL) primary-key value exists the statement
is a no-op, otherwise the row is appended. -/
def insertIgnore (t : Table) (pk : String) (row : Row) : Table :=
  match assocLookup row pk with
  | some v => if (some v) ∈ tableKeys t then t else t ++ [(some v, row)]
  | none => t ++ [(none, row)]

/-- A record of one `.insert` call made by `WarcDB.__iadd__`: destination
table, primary-key column, declared foreign-key edges
(column, referenced table, referenced column) and the inserted row. -/
structure InsertOp where
  table : String
  pk : String
  foreign_keys : List (String × String × String)
  row : Row
deriving DecidableEq, Repr

/-- The `WarcDB` wrapper: the underlying database (a table for every
name) and the configured records-table name (`records` by default). -/
structure WarcDB where
  tables : String → Table
  recordsTable : String

/-- `WarcDB.__len__`: `self.records.count`, the row count of the
configured records table. -/
def WarcDB.len (w : WarcDB) : Nat := (w.tables w.recordsTable).length

/-- Apply one insert-or-ignore to the named table, leaving every other
table untouched. -/
def warcdbInsert (w : WarcDB) (name : String) (row : Row) : WarcDB :=
  { w with
      tables := fun t =>
        if t = name then insertIgnore (w.tables name) "WARC-Record-ID" row
        else w.tables t }

/-- The record types `WarcDB.__iadd__` accepts. -/
def supportedTypes : List String :=
  ["warcinfo", "request", "response", "metadata", "resource"]

/-- `WarcDB.__iadd__`: dispatch on `rec_type`, perform the single
insert-or-ignore of the matching branch (the row built by `as_dict` with
that branch's flags, primary key `WARC-Record-ID`, the branch's foreign
keys), and return the store; any other type raises `ValueError`. The
result also carries the list of insert calls performed, for the
frame/dispatch statements. -/
def iadd (w : WarcDB) (r : ArcWarcRecord) :
    Except String (WarcDB × List InsertOp) :=
  if r.rec_type = "warcinfo" then
    let row := record_as_dict r false true
    .ok (warcdbInsert w "warcinfo" row,
         [⟨"warcinfo", "WARC-Record-ID", [], row⟩])
  else if r.rec_type = "request" then
    let row := record_as_dict r true true
    .ok (warcdbInsert w "request" row,
         [⟨"request", "WARC-Record-ID",
           [("WARC-Warcinfo-ID", "warcinfo", "WARC-Record-ID")], row⟩])
  else if r.rec_type = "response" then
    let row := record_as_dict r true true
    .ok (warcdbInsert w "response" row,
         [⟨"response", "WARC-Record-ID",
           [("WARC-Warcinfo-ID", "warcinfo", "WARC-Record-ID"),
            ("WARC-Concurrent-To", "request", "WARC-Record-ID")], row⟩])
  else if r.rec_type = "metadata" then
    let row := record_as_dict r false true
    .ok (warcdbInsert w "metadata" row,
         [⟨"metadata", "WARC-Record-ID",
           [("WARC-Warcinfo-ID", "warcinfo", "WARC-Record-ID"),
            ("WARC-Concurrent-To", "response", "WARC-Record-ID")], row⟩])
  else if r.rec_type = "resource" then
    let row := record_as_dict r false true
    .ok (warcdbInsert w "resource" row,
         [⟨"resource", "WARC-Record-ID",
           [("WARC-Warcinfo-ID", "warcinfo", "WARC-Record-ID"),
            ("WARC-Concurrent-To", "metadata", "WARC-Record-ID")], row⟩])
  else
    .error ("Record type <" ++ r.rec_type ++ "> is not supported" ++
            "Only [warcinfo, request, response, metadata, resource] are.")

/-- `__iadd__` keeping only the store (`db += r`). -/
def iaddDb (w : WarcDB) (r : ArcWarcRecord) : Except String WarcDB :=
  (iadd w r).map (fun p => p.1)

/-- Ingest a record sequence left to right (`for r in ...: db += r`);
the first raised error aborts the run. -/
def ingestList (w : WarcDB) (rs : List ArcWarcRecord) : Except String WarcDB :=
  match rs with
  | [] => .ok w
  | r :: rest =>
    match iaddDb w r with
    | .ok w1 => ingestList w1 rest
    | .error e => .error e

/-! ### The `import` command -/

/-- The warning side of `import_`: `if batch_size:
warnings.warn("--batch-size has been temporarily disabled")` — Python
integer truthiness, so exactly the nonzero values warn. -/
def importWarnings (batchSize : Int) : List String :=
  if batchSize = 0 then []
  else ["--batch-size has been temporarily disabled"]

/-- The `import` command's ingestion loop: the files' record sequences
are chained in the order given and each record is added individually. The
second component of a successful run models the Python function's return
value: `import_` has no `return` statement, so it returns `None`
(`none` here; a record count would be `some n`). -/
def importRun (w : WarcDB) (files : List (List ArcWarcRecord)) :
    Except String (WarcDB × Option Nat) :=
  (ingestList w files.flatten).map (fun w1 => (w1, none))

/-- The whole `import_` command body for a store already opened on
`db_path`: the batch-size warning step followed by the ingestion loop;
`batchSize` is stored on the `WarcDB` but never consulted again. -/
def importCli (batchSize : Int) (w : WarcDB)
    (files : List (List ArcWarcRecord)) :
    List String × Except String (WarcDB × Option Nat) :=
  (importWarnings batchSize, importRun w files)

/-- Modelled from the spec's §4.3 dispatch table (the claim's wording):
the foreign-key edge set each record type's table is declared with. -/
def specFkEdges : String → List (String × String × String)
  | "warcinfo" => []
  | "request" => [("WARC-Warcinfo-ID", "warcinfo", "WARC-Record-ID")]
  | "response" => [("WARC-Warcinfo-ID", "warcinfo", "WARC-Record-ID"),
                   ("WARC-Concurrent-To", "request", "WARC-Record-ID")]
  | "metadata" => [("WARC-Warcinfo-ID", "warcinfo", "WARC-Record-ID"),
                   ("WARC-Concurrent-To", "response", "WARC-Record-ID")]
  | "resource" => [("WARC-Warcinfo-ID", "warcinfo", "WARC-Record-ID"),
                   ("WARC-Concurrent-To", "metadata", "WARC-Record-ID")]
  | _ => []

/-! ### Association-list lemmas -/

/-- Lookup after a Python dict assignment: the assigned key now maps to
the new value, every other key is untouched. -/
theorem assocLookup_pyDictUpdate {α : Type} (d : List (String × α)) (k : String)
    (v : α) (k' : String) :
    assocLookup (pyDictUpdate d k v) k' =
      if k = k' then some v else assocLookup d k' := by
  induction d with
  | nil => simp [pyDictUpdate, assocLookup]
  | cons p rest ih =>
    obtain ⟨a, b⟩ := p
    by_cases hak : a = k
    · subst hak
      by_cases hk' : a = k'
      · subst hk'
        simp [pyDictUpdate, assocLookup]
      · simp [pyDictUpdate, assocLookup, hk']
    · by_cases hk' : a = k'
      · subst hk'
        have : ¬ k = a := fun h => hak h.symm
        simp [pyDictUpdate, assocLookup, hak, this]
      · simp [pyDictUpdate, assocLookup, hak, hk', ih]

/-- Lookup commutes with mapping a function over the values. -/
theorem assocLookup_map {α β : Type} (d : List (String × α)) (f : α → β)
    (k : String) :
    assocLookup (d.map fun p => (p.1, f p.2)) k = (assocLookup d k).map f := by
  induction d with
  | nil => simp [assocLookup]
  | cons p rest ih =>
    by_cases h : p.1 = k
    · simp [assocLookup, h]
    · simp [assocLookup, h, ih]

/-- Lookup in an appended association list: first list wins. -/
theorem assocLookup_append {α : Type} (l1 l2 : List (String × α)) (k : String) :
    assocLookup (l1 ++ l2) k = (assocLookup l1 k).or (assocLookup l2 k) := by
  induction l1 with
  | nil => simp [assocLookup]
  | cons p rest ih =>
    by_cases h : p.1 = k
    · simp [assocLookup, h]
    · simp [assocLookup, h, ih]

/-- `lastOcc` on a cons: a later occurrence beats the head binding. -/
theorem lastOcc_cons {α : Type} (a : String) (b : α) (ps : List (String × α))
    (k : String) :
    lastOcc ((a, b) :: ps) k =
      (lastOcc ps k).or (if a = k then some b else none) := by
  simp only [lastOcc, List.reverse_cons, assocLookup_append]
  by_cases h : a = k <;> simp [assocLookup, h]

/-- Lookup in `dict(pairs)` is the value of the key's last occurrence. -/
theorem assocLookup_pyDictOfPairs {α : Type} (ps : List (String × α))
    (k : String) : assocLookup (pyDictOfPairs ps) k = lastOcc ps k := by
  have aux : ∀ (qs : List (String × α)) (d : List (String × α)),
      assocLookup (qs.foldl (fun d p => pyDictUpdate d p.1 p.2) d) k =
        (lastOcc qs k).or (assocLookup d k) := by
    intro qs
    induction qs with
    | nil => intro d; simp [lastOcc, assocLookup]
    | cons p rest ih =>
      intro d
      obtain ⟨a, b⟩ := p
      simp only [List.foldl_cons, ih, lastOcc_cons, assocLookup_pyDictUpdate]
      cases hrest : lastOcc rest k with
      | some w => simp
      | none =>
        by_cases hak : a = k <;> simp [hak]
  have := aux ps []
  simpa [pyDictOfPairs, assocLookup] using this

/-- A key that occurs in the pair list has a last occurrence. -/
theorem lastOcc_isSome_of_mem {α : Type} {ps : List (String × α)} {k : String}
    {v : α} (h : (k, v) ∈ ps) : (lastOcc ps k).isSome := by
  have aux : ∀ (l : List (String × α)), (k, v) ∈ l →
      (assocLookup l k).isSome := by
    intro l hl
    induction l with
    | nil => cases hl
    | cons p rest ih =>
      by_cases hk : p.1 = k
      · simp [assocLookup, hk]
      · rcases List.mem_cons.mp hl with he | hm
        · exact absurd (congrArg Prod.fst he).symm hk
        · simp [assocLookup, hk, ih hm]
  exact aux ps.reverse (List.mem_reverse.mpr h)

/-! ### Row lemmas for `record_as_dict` -/

/-- Looking up any key other than the reserved `http_headers` and
`payload` in a derived row sees exactly the WARC-header dict: the value of
the key's last occurrence among the record's headers. -/
theorem record_as_dict_lookup_other (r : ArcWarcRecord)
    (hh pf : Bool) (k : String) (h1 : k ≠ "http_headers")
    (h2 : k ≠ "payload") :
    assocLookup (record_as_dict r hh pf) k =
      (lastOcc r.rec_headers k).map Value.vstr := by
  have h1' : ¬ ("http_headers" = k) := fun h => h1 h.symm
  have h2' : ¬ ("payload" = k) := fun h => h2 h.symm
  unfold record_as_dict record_as_dict_core
  cases hh <;> cases pf <;>
    cases hc : r.http_headers <;>
      simp [assocLookup_pyDictUpdate, h1', h2', assocLookup_map,
        assocLookup_pyDictOfPairs]

/-- With the http-headers flag set, the derived row always binds
`http_headers`: to the serialised envelope when one is present, to the
null marker otherwise. -/
theorem record_as_dict_lookup_http (r : ArcWarcRecord) (pf : Bool) :
    assocLookup (record_as_dict r true pf) "http_headers" =
      some (match r.http_headers with
            | some hh => Value.vstr (headers_to_json hh)
            | none => Value.vnull) := by
  unfold record_as_dict record_as_dict_core
  cases pf <;> cases hc : r.http_headers <;>
    simp [assocLookup_pyDictUpdate]

/-! ### Claim theorems: the record-to-dict adapter (C4, C5, C7) -/

/-- C4 counterexample: a record whose WARC headers repeat the name `X`
(`[("X","1"),("X","2")]`) yields a row that does not contain the field
`("X","1")` verbatim — the dict built from the header pairs keeps only the
last value of a repeated name, so the claim fails as stated. -/
theorem c4_duplicate_header_counterexample :
    ("X", "1") ∈
        (ArcWarcRecord.mk 0 "metadata" [("X", "1"), ("X", "2")] none
          "").rec_headers ∧
      assocLookup
          (record_as_dict
            (ArcWarcRecord.mk 0 "metadata" [("X", "1"), ("X", "2")] none "")
            false false) "X" = some (Value.vstr "2") ∧
      ("X", Value.vstr "1") ∉
        record_as_dict
          (ArcWarcRecord.mk 0 "metadata" [("X", "1"), ("X", "2")] none "")
          false false := by
  refine ⟨by decide, by decide, by decide⟩

/-- C4 amended: the derived row binds every WARC header name of the
record, mapped to the string value of that name's last occurrence among
the record's headers (so a field whose name is not repeated appears
verbatim); the reserved keys `http_headers` and `payload` are excluded
because the corresponding flags overwrite them. -/
theorem record_as_dict_headers_last_occurrence (r : ArcWarcRecord)
    (hh pf : Bool) (k v : String) (hmem : (k, v) ∈ r.rec_headers)
    (h1 : k ≠ "http_headers") (h2 : k ≠ "payload") :
    ∃ v', lastOcc r.rec_headers k = some v' ∧
      assocLookup (record_as_dict r hh pf) k = some (Value.vstr v') := by
  have hs := lastOcc_isSome_of_mem hmem
  obtain ⟨v', hv'⟩ := Option.isSome_iff_exists.mp hs
  refine ⟨v', hv', ?_⟩
  rw [record_as_dict_lookup_other r hh pf k h1 h2, hv']
  rfl

/-- C4 witness: the amended statement instantiated on a record carrying
the unrepeated header `("WARC-Type","metadata")`. -/
theorem record_as_dict_headers_last_occurrence_witness :
    ("WARC-Type", "metadata") ∈
        (ArcWarcRecord.mk 1 "metadata"
          [("WARC-Type", "metadata"), ("WARC-Record-ID", "id1")] none
          "").rec_headers ∧
      ∃ v', lastOcc
            (ArcWarcRecord.mk 1 "metadata"
              [("WARC-Type", "metadata"), ("WARC-Record-ID", "id1")] none
              "").rec_headers "WARC-Type" = some v' ∧
        assocLookup
            (record_as_dict
              (ArcWarcRecord.mk 1 "metadata"
                [("WARC-Type", "metadata"), ("WARC-Record-ID", "id1")] none
                "") true true) "WARC-Type" = some (Value.vstr v') :=
  ⟨by decide,
   record_as_dict_headers_last_occurrence
     (ArcWarcRecord.mk 1 "metadata"
       [("WARC-Type", "metadata"), ("WARC-Record-ID", "id1")] none "")
     true true "WARC-Type" "metadata" (by decide) (by decide) (by decide)⟩

/-- C5: with the http-headers flag enabled the derived row always binds
the `http_headers` key — to the JSON serialisation of the envelope's
ordered `(header, value)` pairs when the record has one, and explicitly to
the null marker (not omitted) when it has none. -/
theorem record_as_dict_http_headers_field (r : ArcWarcRecord) (pf : Bool) :
    assocLookup (record_as_dict r true pf) "http_headers" =
      some (match r.http_headers with
            | some hh => Value.vstr (headers_to_json hh)
            | none => Value.vnull) :=
  record_as_dict_lookup_http r pf

/-- C7: the memoised adapter is write-once per (record identity, flags)
key — a second call with the same record and flags returns exactly the
first call's row and leaves the adapter state (in particular the count of
content-stream reads) untouched. -/
theorem record_as_dict_cached_memoised (s : AdapterState) (r : ArcWarcRecord)
    (hh pf : Bool) :
    record_as_dict_cached ((record_as_dict_cached s r hh pf).2) r hh pf =
        record_as_dict_cached s r hh pf ∧
      ((record_as_dict_cached ((record_as_dict_cached s r hh pf).2) r
          hh pf).2).reads = ((record_as_dict_cached s r hh pf).2).reads := by
  have key : record_as_dict_cached ((record_as_dict_cached s r hh pf).2) r
      hh pf = record_as_dict_cached s r hh pf := by
    cases hl : cacheLookup s.cache (r.recId, hh, pf) with
    | some row => simp [record_as_dict_cached, hl]
    | none =>
      cases pf <;>
        simp [record_as_dict_cached, hl, cacheLookup, contentStreamRead]
  exact ⟨key, by rw [key]⟩

/-! ### Claim theorems: dispatch, rejection, frame (C1, C3, C10) -/

/-- C1: for each of the five supported record types, `__iadd__` performs
exactly one insert-or-ignore, into the table named exactly after the
record type, declared with the dispatch table's foreign-key edge set and
primary key `WARC-Record-ID`; every other table is left untouched and the
returned store is the store itself (same records-table configuration,
only the destination table updated). -/
theorem iadd_single_dispatch (w : WarcDB) (r : ArcWarcRecord)
    (h : r.rec_type ∈ supportedTypes) :
    ∃ row, iadd w r =
      .ok (⟨fun t => if t = r.rec_type then
              insertIgnore (w.tables r.rec_type) "WARC-Record-ID" row
            else w.tables t, w.recordsTable⟩,
           [⟨r.rec_type, "WARC-Record-ID", specFkEdges r.rec_type, row⟩]) := by
  simp only [supportedTypes, List.mem_cons, List.mem_singleton,
    List.not_mem_nil, or_false] at h
  rcases h with h | h | h | h | h
  · exact ⟨record_as_dict r false true, by simp [iadd, warcdbInsert, specFkEdges, h]⟩
  · exact ⟨record_as_dict r true true, by simp [iadd, warcdbInsert, specFkEdges, h]⟩
  · exact ⟨record_as_dict r true true, by simp [iadd, warcdbInsert, specFkEdges, h]⟩
  · exact ⟨record_as_dict r false true, by simp [iadd, warcdbInsert, specFkEdges, h]⟩
  · exact ⟨record_as_dict r false true, by simp [iadd, warcdbInsert, specFkEdges, h]⟩

/-- C1 witness: the dispatch statement instantiated on an empty store and
a minimal response record. -/
theorem iadd_single_dispatch_witness :
    (ArcWarcRecord.mk 2 "response" [("WARC-Record-ID", "idr")] none
        "x").rec_type ∈ supportedTypes ∧
      ∃ row, iadd (WarcDB.mk (fun _ => []) "records")
          (ArcWarcRecord.mk 2 "response" [("WARC-Record-ID", "idr")] none
            "x") =
        .ok (⟨fun t => if t = (ArcWarcRecord.mk 2 "response"
                  [("WARC-Record-ID", "idr")] none "x").rec_type then
                insertIgnore
                  ((WarcDB.mk (fun _ => []) "records").tables
                    (ArcWarcRecord.mk 2 "response"
                      [("WARC-Record-ID", "idr")] none "x").rec_type)
                  "WARC-Record-ID" row
              else (WarcDB.mk (fun _ => []) "records").tables t, "records"⟩,
             [⟨(ArcWarcRecord.mk 2 "response" [("WARC-Record-ID", "idr")]
                  none "x").rec_type, "WARC-Record-ID",
               specFkEdges (ArcWarcRecord.mk 2 "response"
                  [("WARC-Record-ID", "idr")] none "x").rec_type, row⟩]) :=
  ⟨by decide,
   iadd_single_dispatch (WarcDB.mk (fun _ => []) "records")
     (ArcWarcRecord.mk 2 "response" [("WARC-Record-ID", "idr")] none "x")
     (by decide)⟩

/-- C3: a record whose type is outside the five supported ones makes
`__iadd__` raise the classification `ValueError` without touching any
table (the failed call yields no new store), and the error propagates
through the ingestion loop: the run on `r :: rest` halts with that error
and the remaining records are never processed. -/
theorem iadd_unsupported_rejected (w : WarcDB) (r : ArcWarcRecord)
    (rs : List ArcWarcRecord) (h : r.rec_type ∉ supportedTypes) :
    iadd w r =
        .error ("Record type <" ++ r.rec_type ++ "> is not supported" ++
          "Only [warcinfo, request, response, metadata, resource] are.") ∧
      ingestList w (r :: rs) =
        .error ("Record type <" ++ r.rec_type ++ "> is not supported" ++
          "Only [warcinfo, request, response, metadata, resource] are.") := by
  simp only [supportedTypes, List.mem_cons, List.mem_singleton,
    List.not_mem_nil, or_false, not_or] at h
  obtain ⟨h1, h2, h3, h4, h5⟩ := h
  have he : iadd w r =
      .error ("Record type <" ++ r.rec_type ++ "> is not supported" ++
        "Only [warcinfo, request, response, metadata, resource] are.") := by
    simp [iadd, h1, h2, h3, h4, h5]
  exact ⟨he, by simp [ingestList, iaddDb, he, Except.map]⟩

/-- C3 witness: a `revisit` record is rejected on an empty store. -/
theorem iadd_unsupported_rejected_witness :
    (ArcWarcRecord.mk 3 "revisit" [("WARC-Record-ID", "idv")] none
        "").rec_type ∉ supportedTypes ∧
      (iadd (WarcDB.mk (fun _ => []) "records")
          (ArcWarcRecord.mk 3 "revisit" [("WARC-Record-ID", "idv")] none "") =
          .error ("Record type <" ++ "revisit" ++ "> is not supported" ++
            "Only [warcinfo, request, response, metadata, resource] are.") ∧
        ingestList (WarcDB.mk (fun _ => []) "records")
            [ArcWarcRecord.mk 3 "revisit" [("WARC-Record-ID", "idv")] none
              ""] =
          .error ("Record type <" ++ "revisit" ++ "> is not supported" ++
            "Only [warcinfo, request, response, metadata, resource] are.")) :=
  ⟨by decide,
   iadd_unsupported_rejected (WarcDB.mk (fun _ => []) "records")
     (ArcWarcRecord.mk 3 "revisit" [("WARC-Record-ID", "idv")] none "") []
     (by decide)⟩

/-! ### Store lemmas -/

/-- Every successful `__iadd__` is an insert-or-ignore into the table
named after some supported record type. -/
theorem iaddDb_cases (w : WarcDB) (r : ArcWarcRecord) (w1 : WarcDB)
    (h : iaddDb w r = .ok w1) :
    ∃ name row, name ∈ supportedTypes ∧ w1 = warcdbInsert w name row := by
  simp only [iaddDb, iadd] at h
  split at h
  · exact ⟨"warcinfo", record_as_dict r false true, by simp [supportedTypes],
      by simpa [Except.map] using h.symm⟩
  · split at h
    · exact ⟨"request", record_as_dict r true true, by simp [supportedTypes],
        by simpa [Except.map] using h.symm⟩
    · split at h
      · exact ⟨"response", record_as_dict r true true,
          by simp [supportedTypes], by simpa [Except.map] using h.symm⟩
      · split at h
        · exact ⟨"metadata", record_as_dict r false true,
            by simp [supportedTypes], by simpa [Except.map] using h.symm⟩
        · split at h
          · exact ⟨"resource", record_as_dict r false true,
              by simp [supportedTypes], by simpa [Except.map] using h.symm⟩
          · simp [Except.map] at h

/-- A successful `__iadd__` on a supported record inserts the branch's
row into the table named after the record type; the row's primary-key
cell is the record's (last) `WARC-Record-ID` header value. -/
theorem iaddDb_supported_form (w : WarcDB) (r : ArcWarcRecord)
    (h : r.rec_type ∈ supportedTypes) :
    ∃ row, iaddDb w r = .ok (warcdbInsert w r.rec_type row) ∧
      assocLookup row "WARC-Record-ID" =
        (lastOcc r.rec_headers "WARC-Record-ID").map Value.vstr := by
  have hpk : ∀ hh pf, assocLookup (record_as_dict r hh pf) "WARC-Record-ID" =
      (lastOcc r.rec_headers "WARC-Record-ID").map Value.vstr := fun hh pf =>
    record_as_dict_lookup_other r hh pf "WARC-Record-ID" (by decide)
      (by decide)
  simp only [supportedTypes, List.mem_cons, List.mem_singleton,
    List.not_mem_nil, or_false] at h
  rcases h with h | h | h | h | h
  · exact ⟨record_as_dict r false true,
      by simp [iaddDb, iadd, h, Except.map], hpk false true⟩
  · exact ⟨record_as_dict r true true,
      by simp [iaddDb, iadd, h, Except.map], hpk true true⟩
  · exact ⟨record_as_dict r true true,
      by simp [iaddDb, iadd, h, Except.map], hpk true true⟩
  · exact ⟨record_as_dict r false true,
      by simp [iaddDb, iadd, h, Except.map], hpk false true⟩
  · exact ⟨record_as_dict r false true,
      by simp [iaddDb, iadd, h, Except.map], hpk false true⟩

/-- Insert-or-ignore never loses an existing primary-key value. -/
theorem insertIgnore_keys_mono (t : Table) (pk : String) (row : Row)
    (k : Option Value) (h : k ∈ tableKeys t) :
    k ∈ tableKeys (insertIgnore t pk row) := by
  cases hr : assocLookup row pk with
  | some v =>
    simp only [insertIgnore, hr]
    by_cases hv : some v ∈ tableKeys t
    · rw [if_pos hv]; exact h
    · rw [if_neg hv]
      simp only [tableKeys, List.map_append] at h ⊢
      exact List.mem_append_left _ h
  | none =>
    simp only [insertIgnore, hr]
    simp only [tableKeys, List.map_append] at h ⊢
    exact List.mem_append_left _ h

/-- Insert-or-ignore makes the inserted row's primary-key value present. -/
theorem insertIgnore_adds (t : Table) (pk : String) (row : Row) (v : Value)
    (h : assocLookup row pk = some v) :
    some v ∈ tableKeys (insertIgnore t pk row) := by
  simp only [insertIgnore, h]
  by_cases hv : some v ∈ tableKeys t
  · rw [if_pos hv]; exact hv
  · rw [if_neg hv]
    simp [tableKeys]

/-- Insert-or-ignore of a row whose primary-key value is already present
is a no-op. -/
theorem insertIgnore_present (t : Table) (pk : String) (row : Row) (v : Value)
    (h : assocLookup row pk = some v) (hv : some v ∈ tableKeys t) :
    insertIgnore t pk row = t := by
  simp only [insertIgnore, h]
  rw [if_pos hv]

/-- `warcdbInsert` touches only the named table. -/
theorem warcdbInsert_tables (w : WarcDB) (name : String) (row : Row)
    (t : String) :
    (warcdbInsert w name row).tables t =
      if t = name then insertIgnore (w.tables name) "WARC-Record-ID" row
      else w.tables t := rfl

/-- One ingestion step never loses a primary-key value from any table. -/
theorem iaddDb_keys_mono (w : WarcDB) (r : ArcWarcRecord) (w1 : WarcDB)
    (h : iaddDb w r = .ok w1) (t : String) (k : Option Value)
    (hk : k ∈ tableKeys (w.tables t)) : k ∈ tableKeys (w1.tables t) := by
  obtain ⟨name, row, _, rfl⟩ := iaddDb_cases w r w1 h
  rw [warcdbInsert_tables]
  split
  · next heq => subst heq; exact insertIgnore_keys_mono _ _ _ _ hk
  · exact hk

/-- A whole ingestion run never loses a primary-key value. -/
theorem ingest_keys_mono (rs : List ArcWarcRecord) (w w1 : WarcDB)
    (h : ingestList w rs = .ok w1) (t : String) (k : Option Value)
    (hk : k ∈ tableKeys (w.tables t)) : k ∈ tableKeys (w1.tables t) := by
  induction rs generalizing w with
  | nil => simp [ingestList] at h; rw [← h]; exact hk
  | cons r rest ih =>
    simp only [ingestList] at h
    cases hstep : iaddDb w r with
    | ok wm =>
      rw [hstep] at h
      exact ih wm h (iaddDb_keys_mono w r wm hstep t k hk)
    | error e => rw [hstep] at h; cases h

/-- One ingestion step preserves the records-table configuration. -/
theorem iaddDb_recordsTable (w : WarcDB) (r : ArcWarcRecord) (w1 : WarcDB)
    (h : iaddDb w r = .ok w1) : w1.recordsTable = w.recordsTable := by
  obtain ⟨name, row, _, rfl⟩ := iaddDb_cases w r w1 h
  rfl

/-- C10: no `__iadd__` insert ever targets the `records` table — every
branch inserts into one of the five type tables — so across any whole
ingestion run the `records` table, and with it `len(WarcDB)` (the row
count of the `records` table under the default configuration), is
unchanged. -/
theorem ingest_records_table_frame (w : WarcDB) (rs : List ArcWarcRecord)
    (w1 : WarcDB) (h : ingestList w rs = .ok w1) :
    w1.tables "records" = w.tables "records" ∧
      w1.recordsTable = w.recordsTable ∧
      (w.recordsTable = "records" → w1.len = w.len) := by
  have main : w1.tables "records" = w.tables "records" ∧
      w1.recordsTable = w.recordsTable := by
    induction rs generalizing w with
    | nil => simp [ingestList] at h; rw [← h]; exact ⟨rfl, rfl⟩
    | cons r rest ih =>
      simp only [ingestList] at h
      cases hstep : iaddDb w r with
      | ok wm =>
        rw [hstep] at h
        obtain ⟨htab, hrt⟩ := ih wm h
        obtain ⟨name, row, hmem, rfl⟩ := iaddDb_cases w r wm hstep
        have hname : ¬ ("records" = name) := by
          simp only [supportedTypes, List.mem_cons, List.mem_singleton,
            List.not_mem_nil, or_false] at hmem
          rcases hmem with h' | h' | h' | h' | h' <;> subst h' <;> decide
        constructor
        · rw [htab, warcdbInsert_tables, if_neg hname]
        · rw [hrt]; rfl
      | error e => rw [hstep] at h; cases h
  refine ⟨main.1, main.2, fun hrec => ?_⟩
  unfold WarcDB.len
  rw [main.2, hrec, main.1]

/-- C10 witness: ingesting a warcinfo and a response record into a store
with one pre-existing row in `records` leaves `len` at 1. -/
theorem ingest_records_table_frame_witness :
    ingestList
        (WarcDB.mk (fun t => if t = "records" then [(none, [])] else [])
          "records")
        [ArcWarcRecord.mk 4 "warcinfo" [("WARC-Record-ID", "idw")] none "",
         ArcWarcRecord.mk 5 "response"
           [("WARC-Record-ID", "idr2")] none "body"] =
        .ok (warcdbInsert
          (warcdbInsert
            (WarcDB.mk (fun t => if t = "records" then [(none, [])] else [])
              "records")
            "warcinfo"
            (record_as_dict
              (ArcWarcRecord.mk 4 "warcinfo" [("WARC-Record-ID", "idw")]
                none "") false true))
          "response"
          (record_as_dict
            (ArcWarcRecord.mk 5 "response" [("WARC-Record-ID", "idr2")]
              none "body") true true)) ∧
      (warcdbInsert
          (warcdbInsert
            (WarcDB.mk (fun t => if t = "records" then [(none, [])] else [])
              "records")
            "warcinfo"
            (record_as_dict
              (ArcWarcRecord.mk 4 "warcinfo" [("WARC-Record-ID", "idw")]
                none "") false true))
          "response"
          (record_as_dict
            (ArcWarcRecord.mk 5 "response" [("WARC-Record-ID", "idr2")]
              none "body") true true)).tables "records" =
        (WarcDB.mk (fun t => if t = "records" then [(none, [])] else [])
          "records").tables "records" ∧
      (warcdbInsert
          (warcdbInsert
            (WarcDB.mk (fun t => if t = "records" then [(none, [])] else [])
              "records")
            "warcinfo"
            (record_as_dict
              (ArcWarcRecord.mk 4 "warcinfo" [("WARC-Record-ID", "idw")]
                none "") false true))
          "response"
          (record_as_dict
            (ArcWarcRecord.mk 5 "response" [("WARC-Record-ID", "idr2")]
              none "body") true true)).len = 1 := by
  have hrun : ingestList
      (WarcDB.mk (fun t => if t = "records" then [(none, [])] else [])
        "records")
      [ArcWarcRecord.mk 4 "warcinfo" [("WARC-Record-ID", "idw")] none "",
       ArcWarcRecord.mk 5 "response"
         [("WARC-Record-ID", "idr2")] none "body"] =
      .ok (warcdbInsert
        (warcdbInsert
          (WarcDB.mk (fun t => if t = "records" then [(none, [])] else [])
            "records")
          "warcinfo"
          (record_as_dict
            (ArcWarcRecord.mk 4 "warcinfo" [("WARC-Record-ID", "idw")]
              none "") false true))
        "response"
        (record_as_dict
          (ArcWarcRecord.mk 5 "response" [("WARC-Record-ID", "idr2")]
            none "body") true true)) := by
    simp [ingestList, iaddDb, iadd, Except.map]
  have hmain := ingest_records_table_frame
    (WarcDB.mk (fun t => if t = "records" then [(none, [])] else [])
      "records") _ _ hrun
  exact ⟨hrun, hmain.1, by rw [hmain.2.2 rfl]; rfl⟩

/-- After a successful ingestion run, every ingested record's
`WARC-Record-ID` value is present as a primary key in its type's table. -/
theorem ingest_pk_present (rs : List ArcWarcRecord) (w w1 : WarcDB)
    (h : ingestList w rs = .ok w1) (r : ArcWarcRecord) (hr : r ∈ rs)
    (hsup : r.rec_type ∈ supportedTypes) (v : String)
    (hv : lastOcc r.rec_headers "WARC-Record-ID" = some v) :
    some (Value.vstr v) ∈ tableKeys (w1.tables r.rec_type) := by
  induction rs generalizing w with
  | nil => cases hr
  | cons q rest ih =>
    simp only [ingestList] at h
    cases hstep : iaddDb w q with
    | ok wm =>
      rw [hstep] at h
      rcases List.mem_cons.mp hr with rfl | hmem
      · obtain ⟨row, hform, hrowpk⟩ := iaddDb_supported_form w r hsup
        rw [hform] at hstep
        have hwm : wm = warcdbInsert w r.rec_type row :=
          (Except.ok.injEq _ _).mp hstep.symm
        subst hwm
        refine ingest_keys_mono rest _ _ h _ _ ?_
        rw [warcdbInsert_tables, if_pos rfl]
        exact insertIgnore_adds _ _ _ _ (by rw [hrowpk, hv]; rfl)
      · exact ih wm h hmem
    | error e => rw [hstep] at h; cases h

/-- Re-ingesting records whose primary keys are already present leaves
every table exactly as it was: each insert hits the IGNORE branch. -/
theorem ingest_all_present_noop (rs : List ArcWarcRecord) (w1 : WarcDB)
    (hall : ∀ r ∈ rs, r.rec_type ∈ supportedTypes ∧
      ∃ v, lastOcc r.rec_headers "WARC-Record-ID" = some v ∧
        some (Value.vstr v) ∈ tableKeys (w1.tables r.rec_type)) :
    ∀ wx, (∀ t, wx.tables t = w1.tables t) →
      ∃ w2, ingestList wx rs = .ok w2 ∧ ∀ t, w2.tables t = w1.tables t := by
  induction rs with
  | nil => exact fun wx hwx => ⟨wx, rfl, hwx⟩
  | cons r rest ih =>
    intro wx hwx
    obtain ⟨hsup, v, hv, hpresent⟩ := hall r (List.mem_cons_self r rest)
    obtain ⟨row, hform, hrowpk⟩ := iaddDb_supported_form wx r hsup
    have hnoop : insertIgnore (wx.tables r.rec_type) "WARC-Record-ID" row =
        wx.tables r.rec_type := by
      refine insertIgnore_present _ _ _ (Value.vstr v) ?_ ?_
      · rw [hrowpk, hv]; rfl
      · rw [hwx]; exact hpresent
    have hstep : ∀ t, (warcdbInsert wx r.rec_type row).tables t =
        w1.tables t := by
      intro t
      rw [warcdbInsert_tables]
      by_cases ht : t = r.rec_type
      · rw [if_pos ht, hnoop, ht, hwx]
      · rw [if_neg ht, hwx]
    obtain ⟨w2, hrun, hw2⟩ := ih
      (fun q hq => hall q (List.mem_cons_of_mem r hq))
      (warcdbInsert wx r.rec_type row) hstep
    exact ⟨w2, by simp only [ingestList, hform]; exact hrun, hw2⟩

/-- C2: ingestion is idempotent at the row level — after a successful run
over any sequence of supported records that carry a `WARC-Record-ID`,
running the very same sequence again succeeds (no error is raised) and
leaves every table with exactly the same rows: each re-insert meets an
already-present primary key and the IGNORE conflict policy keeps the
original row, neither duplicating nor overwriting it. -/
theorem ingest_twice_idempotent (w : WarcDB) (rs : List ArcWarcRecord)
    (w1 : WarcDB)
    (hall : ∀ r ∈ rs, r.rec_type ∈ supportedTypes ∧
      (lastOcc r.rec_headers "WARC-Record-ID").isSome)
    (h1 : ingestList w rs = .ok w1) :
    ∃ w2, ingestList w1 rs = .ok w2 ∧ ∀ t, w2.tables t = w1.tables t := by
  refine ingest_all_present_noop rs w1 ?_ w1 (fun _ => rfl)
  intro r hr
  obtain ⟨hsup, hsome⟩ := hall r hr
  obtain ⟨v, hv⟩ := Option.isSome_iff_exists.mp hsome
  exact ⟨hsup, v, hv, ingest_pk_present rs w w1 h1 r hr hsup v hv⟩

/-- C2 witness: ingesting the one-record sequence (a response with
`WARC-Record-ID` `idr3`) twice, starting from the empty store, keeps the
single inserted row. -/
theorem ingest_twice_idempotent_witness :
    (∀ r ∈ [ArcWarcRecord.mk 6 "response"
        [("WARC-Record-ID", "idr3")] none "b"],
      r.rec_type ∈ supportedTypes ∧
        (lastOcc r.rec_headers "WARC-Record-ID").isSome) ∧
      ∃ w2, ingestList
          (warcdbInsert (WarcDB.mk (fun _ => []) "records") "response"
            (record_as_dict
              (ArcWarcRecord.mk 6 "response" [("WARC-Record-ID", "idr3")]
                none "b") true true))
          [ArcWarcRecord.mk 6 "response" [("WARC-Record-ID", "idr3")] none
            "b"] = .ok w2 ∧
        ∀ t, w2.tables t =
          (warcdbInsert (WarcDB.mk (fun _ => []) "records") "response"
            (record_as_dict
              (ArcWarcRecord.mk 6 "response" [("WARC-Record-ID", "idr3")]
                none "b") true true)).tables t :=
  ⟨by decide,
   ingest_twice_idempotent (WarcDB.mk (fun _ => []) "records")
     [ArcWarcRecord.mk 6 "response" [("WARC-Record-ID", "idr3")] none "b"]
     (warcdbInsert (WarcDB.mk (fun _ => []) "records") "response"
       (record_as_dict
         (ArcWarcRecord.mk 6 "response" [("WARC-Record-ID", "idr3")] none
           "b") true true))
     (by decide)
     (by simp [ingestList, iaddDb, iadd, Except.map])⟩

/-! ### Claim theorems: the import command (C8, C9) -/

/-- Ingestion over concatenated record lists runs strictly left to
right: the first part is processed to completion (or to its first error)
before the second part starts. -/
theorem ingestList_append (w : WarcDB) (xs ys : List ArcWarcRecord) :
    ingestList w (xs ++ ys) =
      match ingestList w xs with
      | .ok w1 => ingestList w1 ys
      | .error e => .error e := by
  induction xs generalizing w with
  | nil => simp [ingestList]
  | cons r rest ih =>
    simp only [List.cons_append, ingestList]
    cases hstep : iaddDb w r with
    | ok wm => exact ih wm
    | error e => rfl

/-- C8 counterexample: a run over one file holding exactly one record
processes that one record, yet the command's return value is `None`
(`none`), not the count `1` — `import_` has no `return` statement. -/
theorem importRun_count_counterexample :
    (importRun (WarcDB.mk (fun _ => []) "records")
        [[ArcWarcRecord.mk 7 "resource" [("WARC-Record-ID", "ids")] none
          "p"]]).toOption.map (fun p => p.2) = some none ∧
      ([[ArcWarcRecord.mk 7 "resource" [("WARC-Record-ID", "ids")] none
          "p"]] : List (List ArcWarcRecord)).flatten.length = 1 ∧
      (none : Option Nat) ≠ some 1 := by
  refine ⟨?_, by decide, by decide⟩
  rfl

/-- C8 amended: the driver does process every record of every file —
files in the order given, records in file order (a run over `f1 ++ f2`
is the run over `f1` continued into `f2`) — but it returns `None`, not a
count: every successful run's return value is `none` and its final store
is the fold of the add-record operation over the concatenated records. -/
theorem importRun_order_and_return :
    (∀ (w : WarcDB) (f1 f2 : List (List ArcWarcRecord)),
        importRun w (f1 ++ f2) =
          match importRun w f1 with
          | .ok p => importRun p.1 f2
          | .error e => .error e) ∧
      ∀ (w : WarcDB) (files : List (List ArcWarcRecord)) (w1 : WarcDB)
        (ret : Option Nat), importRun w files = .ok (w1, ret) →
          ret = none ∧ ingestList w files.flatten = .ok w1 := by
  constructor
  · intro w f1 f2
    simp only [importRun, List.flatten_append, ingestList_append]
    cases ingestList w f1.flatten with
    | ok wa => simp [Except.map]
    | error e => simp [Except.map]
  · intro w files w1 ret h
    simp only [importRun] at h
    cases hrun : ingestList w files.flatten with
    | ok wa =>
      rw [hrun] at h
      simp only [Except.map, Except.ok.injEq] at h
      obtain ⟨h1, h2⟩ := Prod.mk.injEq .. ▸ h
      exact ⟨h2.symm, congrArg Except.ok h1⟩
    | error e => rw [hrun] at h; simp [Except.map] at h

/-- C8 witness: the amended statement on a store with one one-record
file: the run returns `none` and the store is the single insert. -/
theorem importRun_order_and_return_witness :
    ((none : Option Nat) = none ∧
      ingestList (WarcDB.mk (fun _ => []) "records")
          ([[ArcWarcRecord.mk 7 "resource" [("WARC-Record-ID", "ids")] none
            "p"]] : List (List ArcWarcRecord)).flatten =
        .ok (warcdbInsert (WarcDB.mk (fun _ => []) "records") "resource"
          (record_as_dict
            (ArcWarcRecord.mk 7 "resource" [("WARC-Record-ID", "ids")] none
              "p") false true))) :=
  importRun_order_and_return.2 (WarcDB.mk (fun _ => []) "records")
    [[ArcWarcRecord.mk 7 "resource" [("WARC-Record-ID", "ids")] none "p"]]
    (warcdbInsert (WarcDB.mk (fun _ => []) "records") "resource"
      (record_as_dict
        (ArcWarcRecord.mk 7 "resource" [("WARC-Record-ID", "ids")] none
          "p") false true))
    none (by simp [importRun, ingestList, iaddDb, iadd, Except.map])

/-- C9 counterexample: with `--batch-size 0` no warning at all is
emitted — Python's `if batch_size:` is false at `0` — refuting the claim
that the warning appears for every integer value including 0. -/
theorem importWarnings_zero_counterexample :
    importWarnings 0 = [] ∧ (importWarnings 0).length ≠ 1 :=
  ⟨rfl, by decide⟩

/-- C9 amended: the batching warning is emitted exactly once for every
nonzero `--batch-size` (the default 1000 included), not at all for 0, and
the ingestion outcome never depends on the batch size: records are
committed one by one regardless. -/
theorem importWarnings_nonzero_once (b : Int) :
    (b ≠ 0 →
        importWarnings b = ["--batch-size has been temporarily disabled"]) ∧
      importWarnings 0 = [] ∧
      ∀ (w : WarcDB) (files : List (List ArcWarcRecord)),
        (importCli b w files).2 = importRun w files :=
  ⟨fun hb => by simp [importWarnings, hb], rfl, fun _ _ => rfl⟩

/-- C9 witness: the default batch size 1000 warns exactly once and the
run is the plain unbatched ingestion. -/
theorem importWarnings_nonzero_once_witness :
    importWarnings 1000 = ["--batch-size has been temporarily disabled"] ∧
      (importCli 1000 (WarcDB.mk (fun _ => []) "records") []).2 =
        importRun (WarcDB.mk (fun _ => []) "records") [] :=
  ⟨(importWarnings_nonzero_once 1000).1 (by decide),
   (importWarnings_nonzero_once 1000).2.2 _ _⟩


/-! ### Round-trip lemmas for the JSON string encoding -/

theorem fromHexDigit_hexDigit (d : Nat) (h : d < 16) :
    fromHexDigit (hexDigit d) = some d := by
  have : ∀ e < 16, fromHexDigit (hexDigit e) = some e := by decide
  exact this d h

theorem fromHex4_hex4 (n : Nat) (h : n < 65536) :
    fromHex4 (hexDigit (n / 4096 % 16)) (hexDigit (n / 256 % 16))
      (hexDigit (n / 16 % 16)) (hexDigit (n % 16)) = some n := by
  unfold fromHex4
  rw [fromHexDigit_hexDigit _ (Nat.mod_lt _ (by norm_num)),
    fromHexDigit_hexDigit _ (Nat.mod_lt _ (by norm_num)),
    fromHexDigit_hexDigit _ (Nat.mod_lt _ (by norm_num)),
    fromHexDigit_hexDigit _ (Nat.mod_lt _ (by norm_num))]
  show some (n / 4096 % 16 * 4096 + n / 256 % 16 * 256 + n / 16 % 16 * 16 +
    n % 16) = some n
  have : n / 4096 % 16 * 4096 + n / 256 % 16 * 256 + n / 16 % 16 * 16 +
      n % 16 = n := by omega
  rw [this]

theorem parseU_bmp (n : Nat) (rest : List Char) (h1 : n < 65536)
    (h2 : ¬ (55296 ≤ n ∧ n < 57344)) :
    parseU (hex4 n ++ rest) = some (Char.ofNat n, rest) := by
  simp only [hex4, List.cons_append, List.nil_append]
  simp only [parseU]
  rw [fromHex4_hex4 n h1]
  by_cases hlo : n < 55296
  · simp [hlo]
  · have ha : ¬ n < 56320 := by omega
    have hb : ¬ n < 57344 := by omega
    simp [hlo, ha, hb]

theorem parseLowSur_enc (hi lo : Nat) (rest : List Char)
    (h1 : 56320 ≤ lo) (h2 : lo < 57344) :
    parseLowSur hi ('\\' :: 'u' :: (hex4 lo ++ rest)) =
      some (Char.ofNat (65536 + (hi - 55296) * 1024 + (lo - 56320)), rest) := by
  simp only [hex4, List.cons_append, List.nil_append]
  simp only [parseLowSur]
  rw [fromHex4_hex4 lo (by omega)]
  simp [h1, h2]

theorem parseU_pair (hi lo : Nat) (rest : List Char) (hh1 : 55296 ≤ hi)
    (hh2 : hi < 56320) (hl1 : 56320 ≤ lo) (hl2 : lo < 57344) :
    parseU (hex4 hi ++ ('\\' :: 'u' :: (hex4 lo ++ rest))) =
      some (Char.ofNat (65536 + (hi - 55296) * 1024 + (lo - 56320)), rest) := by
  simp only [hex4, List.cons_append, List.nil_append]
  simp only [parseU]
  rw [fromHex4_hex4 hi (by omega)]
  have c1 : ¬ hi < 55296 := by omega
  simp only [c1, hh2, ite_true, ite_false, if_true, if_false]
  rw [show ('\\' :: 'u' ::
    (hexDigit (lo / 4096 % 16) :: hexDigit (lo / 256 % 16) ::
      hexDigit (lo / 16 % 16) :: hexDigit (lo % 16) :: rest)) =
    ('\\' :: 'u' :: (hex4 lo ++ rest)) from by simp [hex4]]
  exact parseLowSur_enc hi lo rest hl1 hl2

theorem parseU_astral (n : Nat) (rest : List Char) (h1 : 65536 ≤ n)
    (h2 : n < 1114112) :
    parseU (hex4 (55296 + (n - 65536) / 1024) ++
      ('\\' :: 'u' :: (hex4 (56320 + (n - 65536) % 1024) ++ rest))) =
      some (Char.ofNat n, rest) := by
  rw [parseU_pair (55296 + (n - 65536) / 1024) (56320 + (n - 65536) % 1024)
    rest (by omega) (by omega) (by omega) (by omega)]
  rw [show 65536 + (55296 + (n - 65536) / 1024 - 55296) * 1024 +
      (56320 + (n - 65536) % 1024 - 56320) = n from by omega]

theorem char_toNat_valid (c : Char) :
    c.toNat < 55296 ∨ (57343 < c.toNat ∧ c.toNat < 1114112) := by
  have h := c.valid
  have e : c.toNat = c.val.toNat := rfl
  rcases h with h | h
  · left; rw [e]; exact_mod_cast h
  · right; rw [e]; exact ⟨by exact_mod_cast h.1, by exact_mod_cast h.2⟩

theorem parseEscape_u (l : List Char) : parseEscape ('u' :: l) = parseU l := by
  simp [parseEscape]

theorem parseEscape_quote (l : List Char) :
    parseEscape ('"' :: l) = some ('"', l) := by simp [parseEscape]

theorem parseEscape_backslash (l : List Char) :
    parseEscape ('\\' :: l) = some ('\\', l) := by simp [parseEscape]

theorem parseEscape_b (l : List Char) :
    parseEscape ('b' :: l) = some (Char.ofNat 8, l) := by simp [parseEscape]

theorem parseEscape_t (l : List Char) :
    parseEscape ('t' :: l) = some (Char.ofNat 9, l) := by simp [parseEscape]

theorem parseEscape_n (l : List Char) :
    parseEscape ('n' :: l) = some (Char.ofNat 10, l) := by simp [parseEscape]

theorem parseEscape_f (l : List Char) :
    parseEscape ('f' :: l) = some (Char.ofNat 12, l) := by simp [parseEscape]

theorem parseEscape_r (l : List Char) :
    parseEscape ('r' :: l) = some (Char.ofNat 13, l) := by simp [parseEscape]

theorem char_ne_of_toNat_ne (c d : Char) (h : ¬ c.toNat = d.toNat) :
    ¬ c = d := fun he => h (congrArg Char.toNat he)

theorem escapeChar_quote : escapeChar '"' = ['\\', '"'] := rfl

theorem escapeChar_backslash : escapeChar '\\' = ['\\', '\\'] := rfl

theorem escapeChar_sh8 (c : Char) (h : c.toNat = 8) :
    escapeChar c = ['\\', 'b'] := by
  unfold escapeChar
  rw [if_neg (char_ne_of_toNat_ne c '"' (show ¬ c.toNat = 34 by omega)),
    if_neg (char_ne_of_toNat_ne c '\\' (show ¬ c.toNat = 92 by omega)),
    if_pos h]

theorem escapeChar_sh9 (c : Char) (h : c.toNat = 9) :
    escapeChar c = ['\\', 't'] := by
  unfold escapeChar
  rw [if_neg (char_ne_of_toNat_ne c '"' (show ¬ c.toNat = 34 by omega)),
    if_neg (char_ne_of_toNat_ne c '\\' (show ¬ c.toNat = 92 by omega)),
    if_neg (show ¬ c.toNat = 8 by omega), if_pos h]

theorem escapeChar_sh10 (c : Char) (h : c.toNat = 10) :
    escapeChar c = ['\\', 'n'] := by
  unfold escapeChar
  rw [if_neg (char_ne_of_toNat_ne c '"' (show ¬ c.toNat = 34 by omega)),
    if_neg (char_ne_of_toNat_ne c '\\' (show ¬ c.toNat = 92 by omega)),
    if_neg (show ¬ c.toNat = 8 by omega),
    if_neg (show ¬ c.toNat = 9 by omega), if_pos h]

theorem escapeChar_sh12 (c : Char) (h : c.toNat = 12) :
    escapeChar c = ['\\', 'f'] := by
  unfold escapeChar
  rw [if_neg (char_ne_of_toNat_ne c '"' (show ¬ c.toNat = 34 by omega)),
    if_neg (char_ne_of_toNat_ne c '\\' (show ¬ c.toNat = 92 by omega)),
    if_neg (show ¬ c.toNat = 8 by omega),
    if_neg (show ¬ c.toNat = 9 by omega),
    if_neg (show ¬ c.toNat = 10 by omega), if_pos h]

theorem escapeChar_sh13 (c : Char) (h : c.toNat = 13) :
    escapeChar c = ['\\', 'r'] := by
  unfold escapeChar
  rw [if_neg (char_ne_of_toNat_ne c '"' (show ¬ c.toNat = 34 by omega)),
    if_neg (char_ne_of_toNat_ne c '\\' (show ¬ c.toNat = 92 by omega)),
    if_neg (show ¬ c.toNat = 8 by omega),
    if_neg (show ¬ c.toNat = 9 by omega),
    if_neg (show ¬ c.toNat = 10 by omega),
    if_neg (show ¬ c.toNat = 12 by omega), if_pos h]

theorem escapeChar_ctrl (c : Char) (h : c.toNat < 32) (n8 : ¬ c.toNat = 8)
    (n9 : ¬ c.toNat = 9) (n10 : ¬ c.toNat = 10) (n12 : ¬ c.toNat = 12)
    (n13 : ¬ c.toNat = 13) :
    escapeChar c = '\\' :: 'u' :: hex4 c.toNat := by
  unfold escapeChar
  rw [if_neg (char_ne_of_toNat_ne c '"' (show ¬ c.toNat = 34 by omega)),
    if_neg (char_ne_of_toNat_ne c '\\' (show ¬ c.toNat = 92 by omega)),
    if_neg n8, if_neg n9, if_neg n10, if_neg n12, if_neg n13, if_pos h]

theorem escapeChar_ascii (c : Char) (h : 32 ≤ c.toNat) (h2 : c.toNat < 127)
    (hq : ¬ c = '"') (hb : ¬ c = '\\') : escapeChar c = [c] := by
  unfold escapeChar
  rw [if_neg hq, if_neg hb,
    if_neg (show ¬ c.toNat = 8 by omega),
    if_neg (show ¬ c.toNat = 9 by omega),
    if_neg (show ¬ c.toNat = 10 by omega),
    if_neg (show ¬ c.toNat = 12 by omega),
    if_neg (show ¬ c.toNat = 13 by omega),
    if_neg (show ¬ c.toNat < 32 by omega), if_pos h2]

theorem escapeChar_bmp (c : Char) (h : 127 ≤ c.toNat) (h2 : c.toNat < 65536) :
    escapeChar c = '\\' :: 'u' :: hex4 c.toNat := by
  unfold escapeChar
  rw [if_neg (char_ne_of_toNat_ne c '"' (show ¬ c.toNat = 34 by omega)),
    if_neg (char_ne_of_toNat_ne c '\\' (show ¬ c.toNat = 92 by omega)),
    if_neg (show ¬ c.toNat = 8 by omega),
    if_neg (show ¬ c.toNat = 9 by omega),
    if_neg (show ¬ c.toNat = 10 by omega),
    if_neg (show ¬ c.toNat = 12 by omega),
    if_neg (show ¬ c.toNat = 13 by omega),
    if_neg (show ¬ c.toNat < 32 by omega),
    if_neg (show ¬ c.toNat < 127 by omega), if_pos h2]

theorem escapeChar_astral (c : Char) (h : 65536 ≤ c.toNat) :
    escapeChar c =
      '\\' :: 'u' :: hex4 (55296 + (c.toNat - 65536) / 1024) ++
        ('\\' :: 'u' :: hex4 (56320 + (c.toNat - 65536) % 1024)) := by
  unfold escapeChar
  rw [if_neg (char_ne_of_toNat_ne c '"' (show ¬ c.toNat = 34 by omega)),
    if_neg (char_ne_of_toNat_ne c '\\' (show ¬ c.toNat = 92 by omega)),
    if_neg (show ¬ c.toNat = 8 by omega),
    if_neg (show ¬ c.toNat = 9 by omega),
    if_neg (show ¬ c.toNat = 10 by omega),
    if_neg (show ¬ c.toNat = 12 by omega),
    if_neg (show ¬ c.toNat = 13 by omega),
    if_neg (show ¬ c.toNat < 32 by omega),
    if_neg (show ¬ c.toNat < 127 by omega),
    if_neg (show ¬ c.toNat < 65536 by omega)]

theorem parseStrBodyAux_cons (fuel : Nat) (c : Char) (l : List Char) :
    parseStrBodyAux (fuel + 1) (c :: l) =
      if c = '"' then some ([], l)
      else if c = '\\' then
        match parseEscape l with
        | some (d, rest2) => consRes d (parseStrBodyAux fuel rest2)
        | none => none
      else consRes c (parseStrBodyAux fuel l) := rfl

theorem parseStrBodyAux_quote (fuel : Nat) (l : List Char) :
    parseStrBodyAux (fuel + 1) ('"' :: l) = some ([], l) := by
  rw [parseStrBodyAux_cons, if_pos rfl]

theorem parseStrBodyAux_lit (fuel : Nat) (c : Char) (l : List Char)
    (h1 : ¬ c = '"') (h2 : ¬ c = '\\') :
    parseStrBodyAux (fuel + 1) (c :: l) = consRes c (parseStrBodyAux fuel l) := by
  rw [parseStrBodyAux_cons, if_neg h1, if_neg h2]

theorem parseStrBodyAux_escape (fuel : Nat) (l : List Char) (d : Char)
    (r : List Char) (h : parseEscape l = some (d, r)) :
    parseStrBodyAux (fuel + 1) ('\\' :: l) =
      consRes d (parseStrBodyAux fuel r) := by
  rw [parseStrBodyAux_cons, if_neg (show ¬ ('\\' : Char) = '"' by decide),
    if_pos rfl, h]

theorem parseStrBodyAux_step (c : Char) (rest : List Char) (fuel : Nat) :
    parseStrBodyAux (fuel + 1) (escapeChar c ++ rest) =
      consRes c (parseStrBodyAux fuel rest) := by
  by_cases h1 : c = '"'
  · subst h1
    rw [escapeChar_quote]
    exact parseStrBodyAux_escape fuel _ _ _ (parseEscape_quote rest)
  by_cases h2 : c = '\\'
  · subst h2
    rw [escapeChar_backslash]
    exact parseStrBodyAux_escape fuel _ _ _ (parseEscape_backslash rest)
  by_cases h3 : c.toNat = 8
  · rw [escapeChar_sh8 c h3,
      show (['\\', 'b'] : List Char) ++ rest = '\\' :: 'b' :: rest from rfl,
      parseStrBodyAux_escape fuel _ _ _ (parseEscape_b rest),
      show Char.ofNat 8 = c by rw [← h3, Char.ofNat_toNat]]
  by_cases h4 : c.toNat = 9
  · rw [escapeChar_sh9 c h4,
      show (['\\', 't'] : List Char) ++ rest = '\\' :: 't' :: rest from rfl,
      parseStrBodyAux_escape fuel _ _ _ (parseEscape_t rest),
      show Char.ofNat 9 = c by rw [← h4, Char.ofNat_toNat]]
  by_cases h5 : c.toNat = 10
  · rw [escapeChar_sh10 c h5,
      show (['\\', 'n'] : List Char) ++ rest = '\\' :: 'n' :: rest from rfl,
      parseStrBodyAux_escape fuel _ _ _ (parseEscape_n rest),
      show Char.ofNat 10 = c by rw [← h5, Char.ofNat_toNat]]
  by_cases h6 : c.toNat = 12
  · rw [escapeChar_sh12 c h6,
      show (['\\', 'f'] : List Char) ++ rest = '\\' :: 'f' :: rest from rfl,
      parseStrBodyAux_escape fuel _ _ _ (parseEscape_f rest),
      show Char.ofNat 12 = c by rw [← h6, Char.ofNat_toNat]]
  by_cases h7 : c.toNat = 13
  · rw [escapeChar_sh13 c h7,
      show (['\\', 'r'] : List Char) ++ rest = '\\' :: 'r' :: rest from rfl,
      parseStrBodyAux_escape fuel _ _ _ (parseEscape_r rest),
      show Char.ofNat 13 = c by rw [← h7, Char.ofNat_toNat]]
  by_cases h8 : c.toNat < 32
  · rw [escapeChar_ctrl c h8 h3 h4 h5 h6 h7,
      show ('\\' :: 'u' :: hex4 c.toNat) ++ rest =
        '\\' :: 'u' :: (hex4 c.toNat ++ rest) from rfl]
    have hesc : parseEscape ('u' :: (hex4 c.toNat ++ rest)) =
        some (Char.ofNat c.toNat, rest) := by
      rw [parseEscape_u]
      exact parseU_bmp c.toNat rest (by omega) (by omega)
    rw [parseStrBodyAux_escape fuel _ _ _ hesc, Char.ofNat_toNat]
  by_cases h9 : c.toNat < 127
  · rw [escapeChar_ascii c (by omega) h9 h1 h2,
      show ([c] : List Char) ++ rest = c :: rest from rfl]
    exact parseStrBodyAux_lit fuel c rest h1 h2
  have hvalid := char_toNat_valid c
  by_cases h10 : c.toNat < 65536
  · rw [escapeChar_bmp c (by omega) h10,
      show ('\\' :: 'u' :: hex4 c.toNat) ++ rest =
        '\\' :: 'u' :: (hex4 c.toNat ++ rest) from rfl]
    have hesc : parseEscape ('u' :: (hex4 c.toNat ++ rest)) =
        some (Char.ofNat c.toNat, rest) := by
      rw [parseEscape_u]
      exact parseU_bmp c.toNat rest (by omega) (by omega)
    rw [parseStrBodyAux_escape fuel _ _ _ hesc, Char.ofNat_toNat]
  · rw [escapeChar_astral c (by omega),
      show ('\\' :: 'u' :: hex4 (55296 + (c.toNat - 65536) / 1024) ++
          ('\\' :: 'u' :: hex4 (56320 + (c.toNat - 65536) % 1024))) ++ rest =
        '\\' :: 'u' :: (hex4 (55296 + (c.toNat - 65536) / 1024) ++
          ('\\' :: 'u' :: (hex4 (56320 + (c.toNat - 65536) % 1024) ++ rest)))
        from by simp [List.append_assoc]]
    have hesc : parseEscape ('u' :: (hex4 (55296 + (c.toNat - 65536) / 1024) ++
        ('\\' :: 'u' :: (hex4 (56320 + (c.toNat - 65536) % 1024) ++ rest)))) =
        some (Char.ofNat c.toNat, rest) := by
      rw [parseEscape_u]
      exact parseU_astral c.toNat rest (by omega) (by omega)
    rw [parseStrBodyAux_escape fuel _ _ _ hesc, Char.ofNat_toNat]

set_option maxHeartbeats 1000000 in
theorem escapeChar_length_pos (c : Char) : 1 ≤ (escapeChar c).length := by
  unfold escapeChar
  split_ifs <;> simp [hex4]

theorem length_le_flatMap_escape (l : List Char) :
    l.length ≤ (l.flatMap escapeChar).length := by
  induction l with
  | nil => simp
  | cons c rest ih =>
    simp only [List.flatMap_cons, List.length_append, List.length_cons]
    have := escapeChar_length_pos c
    omega

theorem parseStrBodyAux_body (cs : List Char) (rest : List Char) (fuel : Nat)
    (h : cs.length < fuel) :
    parseStrBodyAux fuel (cs.flatMap escapeChar ++ '"' :: rest) =
      some (cs, rest) := by
  induction cs generalizing fuel with
  | nil =>
    obtain ⟨f, rfl⟩ : ∃ f, fuel = f + 1 := ⟨fuel - 1, by omega⟩
    simp only [List.flatMap_nil, List.nil_append]
    exact parseStrBodyAux_quote f rest
  | cons c cs' ih =>
    obtain ⟨f, rfl⟩ : ∃ f, fuel = f + 1 := ⟨fuel - 1, by omega⟩
    simp only [List.flatMap_cons, List.append_assoc]
    rw [parseStrBodyAux_step c _ f, ih f (by simp at h; omega)]
    rfl

theorem parseStrLit_cons_quote (r : List Char) :
    parseStrLit ('"' :: r) =
      (parseStrBodyAux r.length r).map (fun p => (String.mk p.1, p.2)) := rfl

theorem string_mk_toList (s : String) : String.mk s.toList = s := by
  cases s
  rfl

theorem parseStrLit_enc (s : String) (rest : List Char) :
    parseStrLit (encStrChars s ++ rest) = some (s, rest) := by
  rw [show encStrChars s ++ rest =
      '"' :: (s.toList.flatMap escapeChar ++ '"' :: rest) from by
    simp [encStrChars]]
  rw [parseStrLit_cons_quote]
  rw [parseStrBodyAux_body s.toList rest _ (by
    simp only [List.length_append, List.length_cons]
    have := length_le_flatMap_escape s.toList
    omega)]
  simp [string_mk_toList]

theorem dropLit_append (lit l : List Char) : dropLit lit (lit ++ l) = some l := by
  induction lit with
  | nil => rfl
  | cons c cs ih => simp [dropLit, ih]

theorem parsePair_enc (p : String × String) (rest : List Char) :
    parsePair (encPairChars p ++ rest) = some (p, rest) := by
  obtain ⟨h, v⟩ := p
  rw [show encPairChars (h, v) ++ rest =
      ('\x7b' :: "\"header\": ".toList) ++ (encStrChars h ++
        (", \"value\": ".toList ++ (encStrChars v ++ ('\x7d' :: rest))))
    from by simp [encPairChars]]
  unfold parsePair
  rw [dropLit_append]
  simp only [Option.some_bind]
  rw [parseStrLit_enc h _]
  simp only [Option.some_bind]
  rw [dropLit_append]
  simp only [Option.some_bind]
  rw [parseStrLit_enc v _]
  simp only [Option.some_bind]

theorem encHeadersChars_cons_cons (p q : String × String) (hs : Headers) :
    encHeadersChars (p :: q :: hs) =
      encPairChars p ++ (',' :: ' ' :: encHeadersChars (q :: hs)) := rfl

theorem parseItemsAux_enc (hs : Headers) (p : String × String)
    (rest : List Char) (fuel : Nat) (hf : hs.length ≤ fuel) :
    parseItemsAux fuel (encHeadersChars (p :: hs) ++ ']' :: rest) =
      some (p :: hs, rest) := by
  induction hs generalizing p fuel with
  | nil =>
    show parseItemsAux fuel (encPairChars p ++ ']' :: rest) = some ([p], rest)
    unfold parseItemsAux
    rw [parsePair_enc p (']' :: rest)]
    simp only [Option.some_bind]
  | cons q hs' ih =>
    obtain ⟨f, rfl⟩ : ∃ f, fuel = f + 1 :=
      ⟨fuel - 1, by simp at hf; omega⟩
    rw [encHeadersChars_cons_cons, List.append_assoc]
    rw [show (',' :: ' ' :: encHeadersChars (q :: hs')) ++ ']' :: rest =
      ',' :: ' ' :: (encHeadersChars (q :: hs') ++ ']' :: rest) from rfl]
    unfold parseItemsAux
    rw [parsePair_enc p _]
    simp only [Option.some_bind]
    show (parseItemsAux f (encHeadersChars (q :: hs') ++ ']' :: rest)).map
        (fun x => (p :: x.1, x.2)) = some (p :: q :: hs', rest)
    rw [ih q f (by simp at hf; omega)]
    rfl

theorem encHeadersChars_length (p : String × String) (hs : Headers) :
    hs.length + 1 ≤ (encHeadersChars (p :: hs)).length := by
  induction hs generalizing p with
  | nil =>
    show 0 + 1 ≤ (encPairChars p).length
    simp [encPairChars]
  | cons q hs' ih =>
    rw [encHeadersChars_cons_cons]
    have := ih q
    simp only [List.length_append, List.length_cons] at this ⊢
    omega

theorem parseHttpHeaders_mk (r : List Char) :
    parseHttpHeaders (String.mk ('[' :: r)) =
      (if r = [']'] then some []
       else (parseItemsAux r.length r).bind fun q =>
         if q.2 = [] then some q.1 else none) := rfl

/-- Decoding inverts the encoder: parsing the `json.dumps` output of any
ordered header list reproduces exactly that list. -/
theorem parseHttpHeaders_roundtrip (hs : Headers) :
    parseHttpHeaders (headers_to_json hs) = some hs := by
  cases hs with
  | nil => rfl
  | cons p hs' =>
    rw [show headers_to_json (p :: hs') =
      String.mk ('[' :: (encHeadersChars (p :: hs') ++ [']'])) from rfl]
    rw [parseHttpHeaders_mk]
    have hne : ¬ (encHeadersChars (p :: hs') ++ [']'] = [']']) := by
      intro he
      have hlen := congrArg List.length he
      have hb := encHeadersChars_length p hs'
      simp only [List.length_append, List.length_cons,
        List.length_nil] at hlen
      omega
    rw [if_neg hne]
    rw [show encHeadersChars (p :: hs') ++ [']'] =
      encHeadersChars (p :: hs') ++ ']' :: ([] : List Char) from rfl]
    rw [parseItemsAux_enc hs' p [] _ (by
      have hb := encHeadersChars_length p hs'
      simp only [List.length_append, List.length_cons, List.length_nil]
      omega)]
    rfl

/-- C6: for every record with an HTTP envelope (any payload flag), the
value the adapter stores under `http_headers` is the serialised envelope,
and decoding that stored value reproduces exactly the original ordered
`(header, value)` pairs. -/
theorem http_headers_round_trip (r : ArcWarcRecord) (hs : Headers)
    (pf : Bool) (h : r.http_headers = some hs) :
    ∃ out, assocLookup (record_as_dict r true pf) "http_headers" =
        some (Value.vstr out) ∧
      parseHttpHeaders out = some hs := by
  refine ⟨headers_to_json hs, ?_, parseHttpHeaders_roundtrip hs⟩
  rw [record_as_dict_lookup_http r pf, h]

/-- C6 witness: the spec's own example, a request record with headers
`[("User-Agent","x"),("Accept","*/*")]`. -/
theorem http_headers_round_trip_witness :
    (ArcWarcRecord.mk 8 "request" [("WARC-Record-ID", "idq")]
        (some [("User-Agent", "x"), ("Accept", "*/*")]) "q").http_headers =
      some [("User-Agent", "x"), ("Accept", "*/*")] ∧
    ∃ out, assocLookup
        (record_as_dict
          (ArcWarcRecord.mk 8 "request" [("WARC-Record-ID", "idq")]
            (some [("User-Agent", "x"), ("Accept", "*/*")]) "q")
          true true) "http_headers" = some (Value.vstr out) ∧
      parseHttpHeaders out = some [("User-Agent", "x"), ("Accept", "*/*")] :=
  ⟨rfl,
   http_headers_round_trip
     (ArcWarcRecord.mk 8 "request" [("WARC-Record-ID", "idq")]
       (some [("User-Agent", "x"), ("Accept", "*/*")]) "q")
     [("User-Agent", "x"), ("Accept", "*/*")] true rfl⟩
